import Mathlib

/-
Verification of the asynchronous external-process execution engine with a
content-addressed memoization cache from the `conda-helpers` repository.

The embedding covers:
  * `conda_helpers/__main__.py` — `conda_exec_memoize` (argument scan, content
    fingerprinting, cache hit / miss / force flow);
  * `conda_helpers/_async_py35.py` — `_read_stream` / `run_command` (stream
    draining, command-line preparation, spawn failure propagation);
  * `conda_helpers/asyncio_util.py` — `with_loop` (scheduler coordination
    decision table);
  * `conda_helpers/exe_api.py` — `conda_exec` (nonzero-exit escalation).

External collaborators that the repository calls but does not contain
(`joblib.Memory` persistence, `subprocess.list2cmdline`, the operating
system's spawn primitive, SHA-1) are modelled explicitly; their definitions
carry a doc comment saying so.
-/

namespace CondaHelpers

/-- Classification of a path on the file system, as observed by
`path_helpers.path`: `exists()` is true exactly when the kind is not `missing`;
`isfile()` / `isdir()` select the `file` / `dir` kinds; `other` stands for a
path that exists but is neither a regular file nor a directory. -/
inductive FileKind
  | missing
  | file
  | dir
  | other
deriving DecidableEq, Repr

/-- Result of `git_src_info` for a `meta.yaml` recipe file. -/
abbrev GitRev := String × String × String

/-- Ambient file-system state consulted by `conda_exec_memoize`: the kind of
each path, `realpath()` resolution, file byte contents (the input of
`read_hexhash`), the recursive `walkfiles()` listing of a directory, and the
modification time (recorded to state that fingerprinting never consults it).
`gitInfo` abstracts `git_src_info`, which shells out to `git` for a
`meta.yaml` file. -/
structure FileSystem where
  kind : String → FileKind
  realpath : String → String
  content : String → String
  walkfiles : String → List String
  mtime : String → Nat
  gitInfo : String → Option GitRev

/-- Final path component, as `path_helpers.path.name`. -/
def basename (p : String) : String :=
  match (p.splitOn "/").getLast? with
  | some s => s
  | Option.none => p

/-- One element of the heterogeneous `__file_hashes__` tuple built by
`conda_exec_memoize`: a plain string (a resolved path or a content hash), or
the tuple of `(realpath, hash)` pairs collected for a directory argument. -/
inductive HashItem
  | str : String → HashItem
  | files : List (String × String) → HashItem
deriving DecidableEq, Repr

/-- One iteration of the `for i, a in enumerate(args)` loop of
`conda_exec_memoize` (`__main__.py` lines 82–108), for the argument at index
`i`.  Returns the replacement command argument (`none` keeps the literal), the
`__file_hashes__` items appended, and the `__git_revisions__` entries
appended.  `hash` stands for `read_hexhash('sha1')` applied to the file's
bytes. -/
def stepArg (hash : String → String) (fs : FileSystem) (ignore : List String)
    (args : List String) (i : Nat) :
    Option String × List HashItem × List (Option GitRev) :=
  let a := args.getD i ""
  if 0 < i ∧ args.getD (i - 1) "" = "--croot" then
    (Option.none, [], [])
  else if fs.kind a ≠ FileKind.missing ∧ fs.realpath a ∉ ignore then
    match fs.kind a with
    | FileKind.file =>
        (some (fs.realpath a),
         [HashItem.str (fs.realpath a), HashItem.str (hash (fs.content a))],
         if basename a = "meta.yaml" then [fs.gitInfo a] else [])
    | FileKind.dir =>
        (some (fs.realpath a),
         [HashItem.str (fs.realpath a),
          HashItem.files ((fs.walkfiles a).map
            (fun f => (fs.realpath f, hash (fs.content f))))],
         (fs.walkfiles a).filterMap
           (fun f => if basename f = "meta.yaml" then some (fs.gitInfo f)
                     else Option.none))
    | _ => (some (fs.realpath a), [], [])
  else
    (Option.none, [], [])

/-- The complete argument scan of `conda_exec_memoize`: the final `cmd_args`
list, the `__file_hashes__` items collected (in loop order), and the
`__git_revisions__` entries collected. -/
def processArgs (hash : String → String) (fs : FileSystem) (ignore : List String)
    (args : List String) : List String × List HashItem × List (Option GitRev) :=
  ((List.range args.length).map
     (fun i => ((stepArg hash fs ignore args i).1).getD (args.getD i "")),
   ((List.range args.length).map (fun i => (stepArg hash fs ignore args i).2.1)).flatten,
   ((List.range args.length).map (fun i => (stepArg hash fs ignore args i).2.2)).flatten)

/-- Keyword options of `conda_exec_memoize`: the caller-supplied
`__file_hashes__` seed, `__ignore_paths__`, `__force_exec__` and `verbose`. -/
structure MemoKwargs where
  fileHashes : List HashItem := []
  ignorePaths : List String := []
  forceExec : Bool := false
  verbose : Bool := false

/-- The data hashed by `joblib` in `conda_exec._get_output_dir(*cmd_args,
**kwargs)`: the rewritten argument vector, the assembled `__file_hashes__`
tuple, and the `__git_revisions__` tuple (absent ↔ empty).  Two invocations
collide in the cache exactly when these agree (`kwargs['verbose']` is always
set to `True` beforehand, so it never distinguishes keys). -/
structure Key where
  cmdArgs : List String
  fileHashes : List HashItem
  gitRevisions : List (Option GitRev)
deriving DecidableEq, Repr

/-- Fingerprint computation of `conda_exec_memoize` (`__main__.py` lines
71–126): ignore paths are resolved with `realpath`, the argument vector is
scanned, and the hash key is assembled. -/
def fingerprintKey (hash : String → String) (fs : FileSystem) (kw : MemoKwargs)
    (args : List String) : Key :=
  let ignore := kw.ignorePaths.map (fun p => fs.realpath p)
  let r := processArgs hash fs ignore args
  { cmdArgs := r.1
    fileHashes := kw.fileHashes ++ r.2.1
    gitRevisions := r.2.2 }

/-- The argument at index `i` causes the bytes of path `p` to be folded into
the fingerprint: the index is not skipped by the `--croot` rule, the argument
resolves outside the ignore list and exists, and it either is the file `p`
itself or is a directory whose recursive walk contains `p`. -/
abbrev contributes (fs : FileSystem) (ignore : List String) (args : List String)
    (i : Nat) (p : String) : Prop :=
  i < args.length ∧ ¬(0 < i ∧ args.getD (i - 1) "" = "--croot") ∧
  fs.realpath (args.getD i "") ∉ ignore ∧
  ((fs.kind (args.getD i "") = FileKind.file ∧ args.getD i "" = p) ∨
   (fs.kind (args.getD i "") = FileKind.dir ∧ p ∈ fs.walkfiles (args.getD i "")))

/-- Modelled from the spec: the persisted cache store behind
`joblib.Memory.cache` (§3 CacheEntry, §4.3) — a durable map from fingerprint
keys to the stored output of `conda_exec`.  `joblib` itself is a third-party
dependency, not part of this repository's sources. -/
abbrev CacheStore := List (Key × String)

/-- Modelled from the spec: reading the persisted entry for a key (the
`output.pkl` lookup performed both by `conda_exec_memoize` and by the
memoized `conda_exec`). -/
def lookupEntry (st : CacheStore) (k : Key) : Option String :=
  (st.find? (fun e => decide (e.1 = k))).map (fun e => e.2)

/-- Modelled from the spec: deleting a persisted entry
(`output_dir/output.pkl.remove()` on the force path, §4.3 step 4). -/
def deleteEntry (st : CacheStore) (k : Key) : CacheStore :=
  st.filter (fun e => !(decide (e.1 = k)))

/-- Modelled from the spec: persisting a fresh result under its key
(§4.3 step 5). -/
def insertEntry (st : CacheStore) (k : Key) (v : String) : CacheStore :=
  (k, v) :: st

/-- Observable actions of one `conda_exec_memoize` call: deleting the cached
`output.pkl`, actually running the child via `conda_exec`, and re-emitting
stored stdout with `sys.stdout.write`. -/
inductive Event
  | removeCached
  | spawn
  | emitStdout : String → Event
deriving DecidableEq, Repr

/-- The `.replace('\r\n', '\n')` normalization applied to the output of
`conda_exec` (`__main__.py` line 156). -/
def replaceCRLFAux : List Char → List Char
  | [] => []
  | '\r' :: '\n' :: rest => '\n' :: replaceCRLFAux rest
  | c :: rest => c :: replaceCRLFAux rest

/-- String version of `replaceCRLFAux`. -/
def replaceCRLF (s : String) : String :=
  String.mk (replaceCRLFAux s.data)

/-- Outcome of one `conda_exec_memoize` call: the returned value (or the
propagated error), the cache store afterwards, and the observable events in
order. -/
structure MemoOutcome where
  result : Except String String
  cache : CacheStore
  events : List Event
deriving Repr

/-- Cache flow of `conda_exec_memoize` (`__main__.py` lines 126–161): compute
the fingerprint key; if a persisted entry exists and `__force_exec__` is set,
delete it; call the memoized `conda_exec` (a hit returns the stored value, a
miss runs `execFn` and persists its result — persistence on success only, as
`joblib` caches only a successful return); on a hit re-emit the stored stdout
to the caller's standard output.  `execFn` stands for the un-memoized
`conda_exec` body, i.e. the actual child-process execution. -/
def condaExecMemoize (hash : String → String) (fs : FileSystem)
    (execFn : Key → Except String String) (st : CacheStore)
    (kw : MemoKwargs) (args : List String) : MemoOutcome :=
  let key := fingerprintKey hash fs kw args
  let force := (lookupEntry st key).isSome && kw.forceExec
  let cached := (lookupEntry st key).isSome && !kw.forceExec
  let st1 := if force then deleteEntry st key else st
  let ev1 : List Event := if force then [Event.removeCached] else []
  match lookupEntry st1 key with
  | some w =>
      { result := Except.ok (replaceCRLF w), cache := st1,
        events := ev1 ++ (if cached then [Event.emitStdout (replaceCRLF w)] else []) }
  | Option.none =>
      match execFn key with
      | Except.error e =>
          { result := Except.error e, cache := st1,
            events := ev1 ++ [Event.spawn] }
      | Except.ok v =>
          { result := Except.ok (replaceCRLF v), cache := insertEntry st1 key v,
            events := ev1 ++ [Event.spawn]
                      ++ (if cached then [Event.emitStdout (replaceCRLF v)] else []) }

/-- Two successive `conda_exec_memoize` calls with the same invocation, the
second one observing the cache store left by the first. -/
def memoTwice (hash : String → String) (fs : FileSystem)
    (execFn : Key → Except String String) (st : CacheStore)
    (kw : MemoKwargs) (args : List String) : MemoOutcome × MemoOutcome :=
  let o1 := condaExecMemoize hash fs execFn st kw args
  (o1, condaExecMemoize hash fs execFn o1.cache kw args)

/-- Which of the child's two pipes a chunk arrived on. -/
inductive StreamTag
  | out
  | err
deriving DecidableEq, Repr

/-- The `dump` callback of `run_command` (`_async_py35.py` lines 67–71):
each chunk received from a pipe is decoded and appended to that stream's own
`StringIO` buffer (modelled as the append-only list of written chunks). -/
def dump (bufs : List String × List String) (tag : StreamTag) (text : String) :
    List String × List String :=
  match tag with
  | StreamTag.out => (bufs.1 ++ [text], bufs.2)
  | StreamTag.err => (bufs.1, bufs.2 ++ [text])

/-- Concurrent draining of both pipes by the two `_read_stream` tasks
(`_async_py35.py` lines 15–23 and 77–78): the scheduler delivers the chunks
of the two streams in some interleaved order; each arrival invokes `dump` on
its own buffer. -/
def drainEvents (events : List (StreamTag × String)) : List String × List String :=
  events.foldl (fun b e => dump b e.1 e.2) ([], [])

/-- The chunks of one stream, in arrival order, within an interleaved
delivery trace. -/
def projChunks (tag : StreamTag) (events : List (StreamTag × String)) : List String :=
  events.filterMap (fun e => if e.1 = tag then some e.2 else Option.none)

/-- The `stdout_.getvalue()` of `run_command`: concatenation of everything
written to the stdout buffer. -/
def stdoutValue (events : List (StreamTag × String)) : String :=
  String.join (drainEvents events).1

/-- The `stderr_.getvalue()` of `run_command`. -/
def stderrValue (events : List (StreamTag × String)) : String :=
  String.join (drainEvents events).2

/-- Modelled from the spec: Python's `subprocess.list2cmdline` (standard
library, not in this repository) — Windows-style command-line quoting of one
argument.  Pending backslashes are counted and doubled before a literal
quote; an argument containing a space or tab, or an empty argument, is
wrapped in quotes with its trailing backslashes doubled. -/
def quoteArg (arg : String) : String :=
  let needquote := arg.data.contains ' ' || arg.data.contains '\t' || arg = ""
  let step : String × Nat → Char → String × Nat := fun st c =>
    if c = '\\' then (st.1, st.2 + 1)
    else if c = '"' then
      (st.1 ++ String.mk (List.replicate (2 * st.2) '\\') ++ "\\\"", 0)
    else (st.1 ++ String.mk (List.replicate st.2 '\\') ++ String.mk [c], 0)
  let r := arg.data.foldl step ("", 0)
  let body := r.1 ++ String.mk (List.replicate r.2 '\\')
  if needquote then
    "\"" ++ body ++ String.mk (List.replicate r.2 '\\') ++ "\""
  else body

/-- Modelled from the spec: Python's `subprocess.list2cmdline` over a full
argument vector — quoted arguments joined by single spaces. -/
def list2cmdline (args : List String) : String :=
  String.intercalate " " (args.map quoteArg)

/-- The `cmd` parameter of `run_command`: either a single command-line string
or an argument vector (`isinstance(cmd, list)`). -/
inductive CmdInput
  | str : String → CmdInput
  | vec : List String → CmdInput

/-- Command-line preparation of `run_command` (`_async_py35.py` lines 34–35):
a list command is joined into one string with `sp.list2cmdline` before any
spawn-function selection. -/
def preparedCmdline : CmdInput → String
  | CmdInput.str s => s
  | CmdInput.vec v => list2cmdline v

/-- A successfully spawned child process: its eventual exit code and the
chunk sequences it writes to each pipe. -/
structure ChildProcess where
  exitCode : Int
  stdoutChunks : List String
  stderrChunks : List String

/-- The runner `run_command` (`_async_py35.py` lines 25–86): prepare the command line,
spawn through `create_subprocess_shell` or `create_subprocess_exec` according
to the `shell` flag (`spawn shell cmdline`; a spawn failure is an exception,
modelled as `Except.error`, and the body has no handler, so it propagates
unchanged), drain both pipes concurrently (`sched p` is the interleaved
delivery trace the scheduler produced for this run), await the exit code and
return the `(returncode, stdout, stderr)` triple as ordinary data. -/
def runCommand (spawn : Bool → String → Except String ChildProcess)
    (sched : ChildProcess → List (StreamTag × String))
    (shell : Bool) (cmd : CmdInput) : Except String (Int × String × String) :=
  match spawn shell (preparedCmdline cmd) with
  | Except.error e => Except.error e
  | Except.ok p => Except.ok (p.exitCode, stdoutValue (sched p), stderrValue (sched p))

/-- The escalation message of `conda_exec` (`exe_api.py` lines 374–376),
carrying the captured stdout and stderr. -/
def errMessage (cmdline out err : String) : String :=
  "Error executing: `" ++ cmdline ++ "`.\nstdout\n------\n\n" ++ out ++
    "\n\nstderr\n------\n\n" ++ err

/-- Business-layer wrapper `conda_exec` (`exe_api.py` lines 369–391): run the
command through the coordinator with `shell=True`; a nonzero exit code is
escalated to an error carrying the captured stdout and stderr; errors from
the runner propagate unchanged.  (The optional `--json` line filtering on the
success path is orthogonal to the claims and elided; no claim depends on
it.) -/
def condaExec (spawn : Bool → String → Except String ChildProcess)
    (sched : ChildProcess → List (StreamTag × String))
    (cmdv : List String) : Except String String :=
  match runCommand spawn sched true (CmdInput.vec cmdv) with
  | Except.error e => Except.error e
  | Except.ok r =>
      if r.1 ≠ 0 then Except.error (errMessage (list2cmdline cmdv) r.2.1 r.2.2)
      else Except.ok r.2.1

/-- State of the event loop bound to the calling thread, as inspected by
`with_loop` (`asyncio_util.py`): whether it is already running, and whether
it is a `ProactorEventLoop`. -/
structure EventLoop where
  isRunning : Bool
  isProactor : Bool
deriving DecidableEq, Repr

/-- The decision table of `with_loop` (`asyncio_util.py` lines 87–95): a
dedicated worker thread is required when the loop is already running, or on
Windows when the loop is not a `ProactorEventLoop`. -/
def threadRequired (isWindows : Bool) (loop : EventLoop) : Bool :=
  loop.isRunning || (isWindows && !loop.isProactor)

/-- The wrapped function produced by `with_loop` (`asyncio_util.py` lines
84–124).  On the worker-thread branch the coroutine is built with
`func(*args, **kwargs)` (line 114) and driven to completion, its value
returned to the caller; on the inline branch the code runs
`loop.run_until_complete(func(**kwargs))` (line 123) — the positional
arguments are not passed.  `func` is modelled as a function of the positional
argument list and a keyword record `κ`. -/
def withLoop {α κ : Type} (isWindows : Bool) (loop : EventLoop)
    (func : List String → κ → α) (args : List String) (kwargs : κ) : α :=
  if threadRequired isWindows loop then func args kwargs
  else func [] kwargs

/-- Path of `f` expressed relative to directory `d` (drop the leading
`d ++ "/"` when present). -/
def relpathTo (d f : String) : String :=
  if f.data.take (d.data.length + 1) = d.data ++ ['/'] then
    String.mk (f.data.drop (d.data.length + 1))
  else f

/-- Stated from the spec's words, for comparison with the source: "a content
hash for every regular file found by a recursive walk, paired with its
relative path" — the per-directory contribution the specification describes,
pairing each walked file's hash with its path relative to the directory
argument. -/
def dirContributionSpec (hash : String → String) (fs : FileSystem) (d : String) :
    List (String × String) :=
  (fs.walkfiles d).map (fun f => (relpathTo d f, hash (fs.content f)))

/-- Identity content hash: an injective stand-in for SHA-1 used to
instantiate hash-parametric theorems on concrete inputs. -/
def idHash : String → String := fun s => s

/-- Default keyword options (no seed hashes, no ignore paths, no force). -/
def defKw : MemoKwargs := {}

/-- Keyword options with `__force_exec__` set. -/
def kwT : MemoKwargs := { forceExec := true }

/-- Example file system: directory `/d` containing the single file `/d/x`
with content `"cx"`. -/
def fsC2 : FileSystem where
  kind := fun q => if q = "/d" then FileKind.dir
    else if q = "/d/x" then FileKind.file else FileKind.missing
  realpath := fun q => q
  content := fun q => if q = "/d/x" then "cx" else ""
  walkfiles := fun q => if q = "/d" then ["/d/x"] else []
  mtime := fun _ => 0
  gitInfo := fun _ => Option.none

/-- Example file system: as `fsC2` but with the contained file renamed to
`/d/y`, its content unchanged. -/
def fsC2r : FileSystem where
  kind := fun q => if q = "/d" then FileKind.dir
    else if q = "/d/y" then FileKind.file else FileKind.missing
  realpath := fun q => q
  content := fun q => if q = "/d/y" then "cx" else ""
  walkfiles := fun q => if q = "/d" then ["/d/y"] else []
  mtime := fun _ => 0
  gitInfo := fun _ => Option.none

/-- Example file system: single regular file `/p` with content `"c1"`. -/
def fs5a : FileSystem where
  kind := fun q => if q = "/p" then FileKind.file else FileKind.missing
  realpath := fun q => q
  content := fun q => if q = "/p" then "c1" else ""
  walkfiles := fun _ => []
  mtime := fun _ => 0
  gitInfo := fun _ => Option.none

/-- Example file system: as `fs5a` but the bytes of `/p` changed to
`"c2"`. -/
def fs5b : FileSystem :=
  { fs5a with content := fun q => if q = "/p" then "c2" else "" }

/-- Example file system on which no path exists. -/
def fsNone : FileSystem where
  kind := fun _ => FileKind.missing
  realpath := fun q => q
  content := fun _ => ""
  walkfiles := fun _ => []
  mtime := fun _ => 0
  gitInfo := fun _ => Option.none

/-- Example file system where `/d` is a directory with one file, but the
literal `--croot` is not a path. -/
def fsC9 : FileSystem where
  kind := fun q => if q = "/d" then FileKind.dir
    else if q = "/d/z" then FileKind.file else FileKind.missing
  realpath := fun q => q
  content := fun q => if q = "/d/z" then "zz" else ""
  walkfiles := fun q => if q = "/d" then ["/d/z"] else []
  mtime := fun _ => 0
  gitInfo := fun _ => Option.none

/-- Example execution function that always succeeds with output `"out"`. -/
def exeOk : Key → Except String String := fun _ => Except.ok "out"

/-- Example execution function that always fails to spawn. -/
def exeErr : Key → Except String String :=
  fun _ => Except.error "FileNotFoundError"

/-- Example spawn that always fails (missing executable). -/
def spawnFailEx : Bool → String → Except String ChildProcess :=
  fun _ _ => Except.error "FileNotFoundError"

/-- Example child process: writes `"A"`, `"C"` to stdout and `"B"` to
stderr, exits 0. -/
def procABC : ChildProcess :=
  { exitCode := 0, stdoutChunks := ["A", "C"], stderrChunks := ["B"] }

/-- Example spawn that always yields `procABC`. -/
def spawnABC : Bool → String → Except String ChildProcess :=
  fun _ _ => Except.ok procABC

/-- Example delivery trace interleaving `procABC`'s streams as stdout `"A"`,
then stderr `"B"`, then stdout `"C"`. -/
def schedABC : ChildProcess → List (StreamTag × String) :=
  fun _ => [(StreamTag.out, "A"), (StreamTag.err, "B"), (StreamTag.out, "C")]

/-- Example child process that runs to completion with exit code 2. -/
def procExit2 : ChildProcess :=
  { exitCode := 2, stdoutChunks := ["o"], stderrChunks := ["e"] }

/-- Example spawn that always yields `procExit2`. -/
def spawnExit2 : Bool → String → Except String ChildProcess :=
  fun _ _ => Except.ok procExit2

/-- Example delivery trace for `procExit2`. -/
def schedExit2 : ChildProcess → List (StreamTag × String) :=
  fun _ => [(StreamTag.out, "o"), (StreamTag.err, "e")]

/-- Example wrapped coroutine function returning how many positional
arguments it received. -/
def argCount : List String → Bool → Nat := fun args _ => args.length

/-- Example cache store holding a stale entry for the forced invocation of
`["x"]` on `fsNone`. -/
def stOld : CacheStore := [(fingerprintKey idHash fsNone kwT ["x"], "old")]

/- Helper lemmas. -/

/-- A freshly persisted entry is found by a subsequent lookup. -/
theorem lookupEntry_insert_self (st : CacheStore) (k : Key) (v : String) :
    lookupEntry (insertEntry st k v) k = some v := by
  simp [lookupEntry, insertEntry, List.find?]

/-- After deleting a key, looking it up misses. -/
theorem lookupEntry_delete_self (st : CacheStore) (k : Key) :
    lookupEntry (deleteEntry st k) k = Option.none := by
  induction st with
  | nil => rfl
  | cons e rest ih =>
      by_cases h : e.1 = k
      · have hd : deleteEntry (e :: rest) k = deleteEntry rest k := by
          simp [deleteEntry, List.filter, h]
        rw [hd]
        exact ih
      · have hl : lookupEntry (deleteEntry (e :: rest) k) k =
            lookupEntry (deleteEntry rest k) k := by
          simp [deleteEntry, lookupEntry, List.filter, List.find?, h]
        rw [hl]
        exact ih

/-- Equal maps over the same list agree on its elements. -/
theorem map_eq_on {α β : Type} {f g : α → β} :
    ∀ {l : List α}, l.map f = l.map g → ∀ x ∈ l, f x = g x := by
  intro l
  induction l with
  | nil => intro _ x hx; cases hx
  | cons a t ih =>
      intro h x hx
      rw [List.map_cons, List.map_cons] at h
      injection h with h1 h2
      rcases List.mem_cons.mp hx with rfl | hx
      · exact h1
      · exact ih h2 x hx

/-- Two concatenations of pointwise equally long blocks over the same index
list are equal only blockwise. -/
theorem flatten_map_eq {α β : Type} (f g : β → List α) :
    ∀ l : List β, (∀ x ∈ l, (f x).length = (g x).length) →
      (l.map f).flatten = (l.map g).flatten → ∀ x ∈ l, f x = g x := by
  intro l
  induction l with
  | nil => intro _ _ x hx; cases hx
  | cons a t ih =>
      intro hlen hj x hx
      rw [List.map_cons, List.map_cons, List.flatten_cons, List.flatten_cons] at hj
      obtain ⟨h1, h2⟩ := List.append_inj hj (hlen a (List.mem_cons_self a t))
      rcases List.mem_cons.mp hx with rfl | hx
      · exact h1
      · exact ih (fun y hy => hlen y (List.mem_cons_of_mem a hy)) h2 x hx

/-- The `__file_hashes__` block contributed by one argument index has the
same length on two file systems that agree on path kinds, `realpath` and
directory walks (the block is `[]` or a two-item list in all cases). -/
theorem stepArg_length_congr (hash : String → String) (fs1 fs2 : FileSystem)
    (ignore : List String) (args : List String) (i : Nat)
    (hk : fs1.kind = fs2.kind) (hr : fs1.realpath = fs2.realpath)
    (hw : fs1.walkfiles = fs2.walkfiles) :
    ((stepArg hash fs1 ignore args i).2.1).length =
      ((stepArg hash fs2 ignore args i).2.1).length := by
  unfold stepArg
  dsimp only
  rw [hk, hr, hw]
  cases h : fs2.kind (args.getD i "") <;>
    · split
      · rfl
      · split
        · rfl
        · rfl

/-- The block contributed by an existing, non-ignored file argument: its
resolved path followed by the hash of its bytes. -/
theorem stepArg_file_block (hash : String → String) (fs : FileSystem)
    (ignore : List String) (args : List String) (i : Nat)
    (hskip : ¬(0 < i ∧ args.getD (i - 1) "" = "--croot"))
    (hig : fs.realpath (args.getD i "") ∉ ignore)
    (hfile : fs.kind (args.getD i "") = FileKind.file) :
    (stepArg hash fs ignore args i).2.1 =
      [HashItem.str (fs.realpath (args.getD i "")),
       HashItem.str (hash (fs.content (args.getD i "")))] := by
  unfold stepArg
  dsimp only
  split
  · next h => exact absurd h hskip
  · split
    · rw [hfile]
    · next h => exact absurd ⟨by rw [hfile]; exact fun hc => FileKind.noConfusion hc, hig⟩ h

/-- The block contributed by an existing, non-ignored directory argument:
its resolved path followed by the `(realpath, hash)` pairs of its recursive
walk. -/
theorem stepArg_dir_block (hash : String → String) (fs : FileSystem)
    (ignore : List String) (args : List String) (i : Nat)
    (hskip : ¬(0 < i ∧ args.getD (i - 1) "" = "--croot"))
    (hig : fs.realpath (args.getD i "") ∉ ignore)
    (hdir : fs.kind (args.getD i "") = FileKind.dir) :
    (stepArg hash fs ignore args i).2.1 =
      [HashItem.str (fs.realpath (args.getD i "")),
       HashItem.files ((fs.walkfiles (args.getD i "")).map
         (fun f => (fs.realpath f, hash (fs.content f))))] := by
  unfold stepArg
  dsimp only
  split
  · next h => exact absurd h hskip
  · split
    · rw [hdir]
    · next h => exact absurd ⟨by rw [hdir]; exact fun hc => FileKind.noConfusion hc, hig⟩ h

/-- Draining a delivery trace from an arbitrary pair of buffers appends
each stream's projection to its own buffer. -/
theorem drain_foldl (events : List (StreamTag × String)) :
    ∀ b : List String × List String,
      events.foldl (fun b e => dump b e.1 e.2) b =
        (b.1 ++ projChunks StreamTag.out events,
         b.2 ++ projChunks StreamTag.err events) := by
  induction events with
  | nil => intro b; simp [projChunks]
  | cons e rest ih =>
      intro b
      cases e with
      | mk t s =>
          cases t <;>
            · rw [List.foldl_cons, ih]
              simp [dump, projChunks, List.append_assoc]

/- Claim theorems. -/

/-- C1: the claim asserts that `with_loop`'s inline branch passes the
caller's positional arguments exactly as the worker-thread branch does and
that both branches return the same value.  On the code this is false: the
worker-thread branch (loop already running) builds the coroutine with
`func(*args, **kwargs)` and sees both positional arguments, while the inline
branch (idle loop, non-Windows) runs `func(**kwargs)` and sees none, so the
two branches disagree on any function that depends on its positional
arguments — here a function counting them. -/
theorem c1_inline_branch_drops_args :
    withLoop false { isRunning := true, isProactor := false }
        argCount ["conda", "render"] true = 2 ∧
    withLoop false { isRunning := false, isProactor := false }
        argCount ["conda", "render"] true = 0 := by
  decide

/-- C2 counterexample: for the directory argument `/d` containing the single
file `/d/x`, the collected `__file_hashes__` pair the content hash with the
file's resolved absolute path `/d/x`, not with the path `x` relative to the
directory as the claim states. -/
theorem c2_relative_path_counterexample :
    (processArgs idHash fsC2 [] ["/d"]).2.1 ≠
      [HashItem.str "/d", HashItem.files (dirContributionSpec idHash fsC2 "/d")] ∧
    dirContributionSpec idHash fsC2 "/d" = [("x", "cx")] ∧
    (processArgs idHash fsC2 [] ["/d"]).2.1 =
      [HashItem.str "/d", HashItem.files [("/d/x", "cx")]] := by
  refine ⟨?_, by decide, by decide⟩
  decide

/-- C9: an argument immediately following the literal `--croot` contributes
to the fingerprint only as a literal string: the command argument is kept
verbatim (not resolved to its real path), no content hash is collected for
it, and the fingerprint is completely independent of the state of the file
system at or under that argument — the two file systems below are arbitrary
and need only agree that the literal `--croot` itself is not an existing
path. -/
theorem c9_croot_skip (hash : String → String) (fs1 fs2 : FileSystem)
    (kw : MemoKwargs) (d : String)
    (h1 : fs1.kind "--croot" = FileKind.missing)
    (h2 : fs2.kind "--croot" = FileKind.missing) :
    fingerprintKey hash fs1 kw ["--croot", d] =
      fingerprintKey hash fs2 kw ["--croot", d] ∧
    (fingerprintKey hash fs1 kw ["--croot", d]).cmdArgs = ["--croot", d] ∧
    (fingerprintKey hash fs1 kw ["--croot", d]).fileHashes = kw.fileHashes := by
  refine ⟨?_, ?_, ?_⟩ <;>
    simp [fingerprintKey, processArgs, stepArg, h1, h2, List.range_succ]

/-- C9 witness: the fingerprint over `["--croot", "/d"]` is the same whether
`/d` does not exist at all or is a directory containing a file. -/
theorem c9_witness :
    fingerprintKey idHash fsNone defKw ["--croot", "/d"] =
      fingerprintKey idHash fsC9 defKw ["--croot", "/d"] :=
  (c9_croot_skip idHash fsNone fsC9 defKw "/d" rfl rfl).1

/-- C10: a command given as a list is first joined into a single
command-line string with Windows-style quoting (`subprocess.list2cmdline`),
for either value of the shell flag, so the spawn function — shell or
exec-style — receives the single joined string and running the vector form
is indistinguishable from running the pre-joined string form. -/
theorem c10_list_command (v : List String) :
    preparedCmdline (CmdInput.vec v) = list2cmdline v ∧
    (∀ (spawn : Bool → String → Except String ChildProcess)
        (sched : ChildProcess → List (StreamTag × String)) (shell : Bool),
      runCommand spawn sched shell (CmdInput.vec v) =
        runCommand spawn sched shell (CmdInput.str (list2cmdline v))) :=
  ⟨rfl, fun _ _ _ => rfl⟩

/-- C7: for every child process and every interleaved delivery of the two
pipes' chunks whose per-stream projections are the child's chunk sequences,
`run_command` returns a stdout equal to the order-preserving concatenation
of exactly the stdout chunks, and a stderr likewise for the stderr pipe. -/
theorem c7_stream_fidelity (spawn : Bool → String → Except String ChildProcess)
    (sched : ChildProcess → List (StreamTag × String)) (shell : Bool)
    (cmd : CmdInput) (p : ChildProcess)
    (hspawn : spawn shell (preparedCmdline cmd) = Except.ok p)
    (hout : projChunks StreamTag.out (sched p) = p.stdoutChunks)
    (herr : projChunks StreamTag.err (sched p) = p.stderrChunks) :
    runCommand spawn sched shell cmd =
      Except.ok (p.exitCode, String.join p.stdoutChunks,
                 String.join p.stderrChunks) := by
  simp [runCommand, hspawn, stdoutValue, stderrValue, drainEvents, drain_foldl,
        hout, herr]

/-- No `spawn` event is counted in a singleton stdout-emission list. -/
theorem count_spawn_emit (s : String) :
    List.count Event.spawn [Event.emitStdout s] = 0 := by
  simp [List.count_cons]

/-- C3: with `forceReexecution` false and an unchanged file system between
the calls, the second call finds the persisted entry: its result equals the
first call's, the child is spawned at most once across both calls and not at
all in the second call, and the second call re-emits the stored stdout to
the caller's standard output. -/
theorem c3_cache_idempotence (hash : String → String) (fs : FileSystem)
    (execFn : Key → Except String String) (st : CacheStore) (kw : MemoKwargs)
    (args : List String) (v : String)
    (hforce : kw.forceExec = false)
    (hrun : execFn (fingerprintKey hash fs kw args) = Except.ok v) :
    ((memoTwice hash fs execFn st kw args).2).result =
      ((memoTwice hash fs execFn st kw args).1).result ∧
    ((memoTwice hash fs execFn st kw args).1).events.count Event.spawn +
      ((memoTwice hash fs execFn st kw args).2).events.count Event.spawn ≤ 1 ∧
    ((memoTwice hash fs execFn st kw args).2).events.count Event.spawn = 0 ∧
    (∃ s, ((memoTwice hash fs execFn st kw args).2).result = Except.ok s ∧
      Event.emitStdout s ∈ ((memoTwice hash fs execFn st kw args).2).events) := by
  rcases h : lookupEntry st (fingerprintKey hash fs kw args) with _ | w
  · refine ⟨?_, ?_, ?_, ?_⟩ <;>
      simp [memoTwice, condaExecMemoize, h, hforce, hrun,
            lookupEntry_insert_self, count_spawn_emit, List.count_cons]
  · refine ⟨?_, ?_, ?_, ?_⟩ <;>
      simp [memoTwice, condaExecMemoize, h, hforce, count_spawn_emit]

/-- C6: with `forceReexecution` true and a persisted entry present, the
entry is deleted strictly before the child is spawned (the event trace is
exactly delete-then-spawn), a child is always spawned, and the fresh result
overwrites the stored entry. -/
theorem c6_force_bypass (hash : String → String) (fs : FileSystem)
    (execFn : Key → Except String String) (st : CacheStore) (kw : MemoKwargs)
    (args : List String) (old v : String)
    (hforce : kw.forceExec = true)
    (hold : lookupEntry st (fingerprintKey hash fs kw args) = some old)
    (hrun : execFn (fingerprintKey hash fs kw args) = Except.ok v) :
    (condaExecMemoize hash fs execFn st kw args).events =
      [Event.removeCached, Event.spawn] ∧
    lookupEntry (condaExecMemoize hash fs execFn st kw args).cache
      (fingerprintKey hash fs kw args) = some v ∧
    (condaExecMemoize hash fs execFn st kw args).result =
      Except.ok (replaceCRLF v) := by
  refine ⟨?_, ?_, ?_⟩ <;>
    simp [condaExecMemoize, hforce, hold, hrun, lookupEntry_delete_self,
          lookupEntry_insert_self]

/-- C4: a spawn failure (missing executable, permission denied) is an error
of the spawn call itself; `run_command` has no handler around it, so for
either value of the shell flag the failure propagates to the caller as a
distinct error and is never folded into a nonzero exit code of an ordinary
result; the business layer (`conda_exec`) propagates it unchanged as well,
and on a cache miss the memoization layer propagates it and leaves the
persisted store untouched — the failure is never cached. -/
theorem c4_spawn_failure (spawn : Bool → String → Except String ChildProcess)
    (sched : ChildProcess → List (StreamTag × String)) (shell : Bool)
    (cmd : CmdInput) (e : String)
    (hfail : spawn shell (preparedCmdline cmd) = Except.error e) :
    runCommand spawn sched shell cmd = Except.error e ∧
    (∀ r : Int × String × String,
      runCommand spawn sched shell cmd ≠ Except.ok r) ∧
    (∀ (hash : String → String) (fs : FileSystem)
        (execFn : Key → Except String String) (st : CacheStore)
        (kw : MemoKwargs) (args : List String),
      execFn (fingerprintKey hash fs kw args) = Except.error e →
      lookupEntry st (fingerprintKey hash fs kw args) = Option.none →
      (condaExecMemoize hash fs execFn st kw args).result = Except.error e ∧
      (condaExecMemoize hash fs execFn st kw args).cache = st) ∧
    (∀ cmdv : List String,
      spawn true (preparedCmdline (CmdInput.vec cmdv)) = Except.error e →
      condaExec spawn sched cmdv = Except.error e) := by
  refine ⟨?_, ?_, ?_, ?_⟩
  · simp [runCommand, hfail]
  · intro r
    simp [runCommand, hfail]
  · intro hash fs execFn st kw args hexec hmiss
    constructor <;> simp [condaExecMemoize, hmiss, hexec]
  · intro cmdv hf
    simp [condaExec, runCommand, hf]

/-- C8: a successfully spawned child that exits nonzero is not an error in
the runner — `run_command` returns the `(exitCode, stdout, stderr)` triple
as ordinary data for every exit code; the escalation to a fatal error
carrying the captured stdout and stderr happens only in the business layer
`conda_exec`, and only for a nonzero code. -/
theorem c8_nonzero_exit_is_data (spawn : Bool → String → Except String ChildProcess)
    (sched : ChildProcess → List (StreamTag × String)) (cmdv : List String)
    (p : ChildProcess)
    (hspawn : spawn true (list2cmdline cmdv) = Except.ok p) :
    runCommand spawn sched true (CmdInput.vec cmdv) =
      Except.ok (p.exitCode, stdoutValue (sched p), stderrValue (sched p)) ∧
    (p.exitCode ≠ 0 →
      condaExec spawn sched cmdv =
        Except.error (errMessage (list2cmdline cmdv)
          (stdoutValue (sched p)) (stderrValue (sched p)))) ∧
    (p.exitCode = 0 →
      condaExec spawn sched cmdv = Except.ok (stdoutValue (sched p))) := by
  refine ⟨?_, ?_, ?_⟩
  · simp [runCommand, preparedCmdline, hspawn]
  · intro hne
    simp [condaExec, runCommand, preparedCmdline, hspawn, hne]
  · intro hz
    simp [condaExec, runCommand, preparedCmdline, hspawn, hz]

/-- C3 witness: a first execution over an empty store followed by a second
identical call — evaluated on a concrete invocation. -/
theorem c3_witness :
    ((memoTwice idHash fsNone exeOk [] defKw ["x"]).2).result =
      ((memoTwice idHash fsNone exeOk [] defKw ["x"]).1).result ∧
    ((memoTwice idHash fsNone exeOk [] defKw ["x"]).1).events.count Event.spawn +
      ((memoTwice idHash fsNone exeOk [] defKw ["x"]).2).events.count Event.spawn ≤ 1 ∧
    ((memoTwice idHash fsNone exeOk [] defKw ["x"]).2).events.count Event.spawn = 0 ∧
    (∃ s, ((memoTwice idHash fsNone exeOk [] defKw ["x"]).2).result = Except.ok s ∧
      Event.emitStdout s ∈ ((memoTwice idHash fsNone exeOk [] defKw ["x"]).2).events) :=
  c3_cache_idempotence idHash fsNone exeOk [] defKw ["x"] "out" rfl rfl

/-- C6 witness: forcing re-execution over a store that already holds an
entry for the invocation. -/
theorem c6_witness :
    (condaExecMemoize idHash fsNone exeOk stOld kwT ["x"]).events =
      [Event.removeCached, Event.spawn] ∧
    lookupEntry (condaExecMemoize idHash fsNone exeOk stOld kwT ["x"]).cache
      (fingerprintKey idHash fsNone kwT ["x"]) = some "out" ∧
    (condaExecMemoize idHash fsNone exeOk stOld kwT ["x"]).result =
      Except.ok (replaceCRLF "out") := by
  exact c6_force_bypass idHash fsNone exeOk stOld kwT ["x"] "old" "out"
    rfl (by decide) rfl

/-- C4 witness: a spawn that fails with a missing executable, for the
exec-style path, the memoization layer over an empty store, and the
business layer. -/
theorem c4_witness :
    runCommand spawnFailEx schedABC false (CmdInput.str "prog") =
      Except.error "FileNotFoundError" ∧
    (condaExecMemoize idHash fsNone exeErr [] defKw ["x"]).result =
      Except.error "FileNotFoundError" ∧
    (condaExecMemoize idHash fsNone exeErr [] defKw ["x"]).cache = [] ∧
    condaExec spawnFailEx schedABC ["conda", "info"] =
      Except.error "FileNotFoundError" := by
  have h := c4_spawn_failure spawnFailEx schedABC false (CmdInput.str "prog")
    "FileNotFoundError" rfl
  refine ⟨h.1, ?_, ?_, h.2.2.2 ["conda", "info"] rfl⟩
  · exact (h.2.2.1 idHash fsNone exeErr [] defKw ["x"] rfl rfl).1
  · exact (h.2.2.1 idHash fsNone exeErr [] defKw ["x"] rfl rfl).2

/-- C8 witness: a child exiting with code 2 — the runner returns it as data
and `conda_exec` escalates it with the captured output attached. -/
theorem c8_witness :
    runCommand spawnExit2 schedExit2 true (CmdInput.vec ["conda", "info"]) =
      Except.ok (2, "o", "e") ∧
    condaExec spawnExit2 schedExit2 ["conda", "info"] =
      Except.error (errMessage (list2cmdline ["conda", "info"]) "o" "e") := by
  have h := c8_nonzero_exit_is_data spawnExit2 schedExit2 ["conda", "info"]
    procExit2 rfl
  exact ⟨by simpa using h.1, by simpa using h.2.1 (by decide)⟩

/-- C7 witness: a child writing `"A"` to stdout, `"B"` to stderr and `"C"`
to stdout, delivered in exactly that interleaved order, yields stdout
`"AC"` and stderr `"B"`. -/
theorem c7_witness :
    runCommand spawnABC schedABC true (CmdInput.str "child") =
      Except.ok (0, "AC", "B") := by
  simpa using c7_stream_fidelity spawnABC schedABC true (CmdInput.str "child")
    procABC rfl rfl rfl

/-- C2 (amended): when an argument of a memoized execution names an existing
directory that is not ignored, the Fingerprint folds in, for every file found
by the recursive walk of that directory, the file's content hash paired with
the file's resolved absolute path (its `realpath`) — not the path relative to
the directory — and consequently renaming a contained file without changing
its bytes (which changes the walk's resolved paths) still changes the
Fingerprint. -/
theorem c2_dir_hash_realpath (hash : String → String) (fs fsr : FileSystem)
    (kw : MemoKwargs) (d : String)
    (hdir : fs.kind d = FileKind.dir)
    (hig : fs.realpath d ∉ kw.ignorePaths.map (fun q => fs.realpath q))
    (hdirr : fsr.kind d = FileKind.dir)
    (higr : fsr.realpath d ∉ kw.ignorePaths.map (fun q => fsr.realpath q)) :
    (fingerprintKey hash fs kw [d]).fileHashes =
      kw.fileHashes ++
        [HashItem.str (fs.realpath d),
         HashItem.files ((fs.walkfiles d).map
           (fun f => (fs.realpath f, hash (fs.content f))))] ∧
    ((fsr.walkfiles d).map fsr.realpath ≠ (fs.walkfiles d).map fs.realpath →
      fingerprintKey hash fsr kw [d] ≠ fingerprintKey hash fs kw [d]) := by
  have hb : (stepArg hash fs (kw.ignorePaths.map (fun q => fs.realpath q)) [d] 0).2.1 =
      [HashItem.str (fs.realpath d),
       HashItem.files ((fs.walkfiles d).map
         (fun f => (fs.realpath f, hash (fs.content f))))] :=
    stepArg_dir_block hash fs (kw.ignorePaths.map (fun q => fs.realpath q))
      [d] 0 (by simp) hig hdir
  have hbr : (stepArg hash fsr (kw.ignorePaths.map (fun q => fsr.realpath q)) [d] 0).2.1 =
      [HashItem.str (fsr.realpath d),
       HashItem.files ((fsr.walkfiles d).map
         (fun f => (fsr.realpath f, hash (fsr.content f))))] :=
    stepArg_dir_block hash fsr (kw.ignorePaths.map (fun q => fsr.realpath q))
      [d] 0 (by simp) higr hdirr
  have e1 : (fingerprintKey hash fs kw [d]).fileHashes =
      kw.fileHashes ++
        [HashItem.str (fs.realpath d),
         HashItem.files ((fs.walkfiles d).map
           (fun f => (fs.realpath f, hash (fs.content f))))] := by
    simp only [fingerprintKey, processArgs]
    rw [show List.range [d].length = [0] by simp [List.range_succ]]
    simp [hb]
  have e2 : (fingerprintKey hash fsr kw [d]).fileHashes =
      kw.fileHashes ++
        [HashItem.str (fsr.realpath d),
         HashItem.files ((fsr.walkfiles d).map
           (fun f => (fsr.realpath f, hash (fsr.content f))))] := by
    simp only [fingerprintKey, processArgs]
    rw [show List.range [d].length = [0] by simp [List.range_succ]]
    simp [hbr]
  refine ⟨e1, ?_⟩
  intro hmaps hkey
  have hfh := congrArg Key.fileHashes hkey
  rw [e1, e2] at hfh
  have hlist := List.append_cancel_left hfh
  simp only [List.cons.injEq, HashItem.str.injEq, HashItem.files.injEq,
    and_true] at hlist
  have hm := congrArg (List.map Prod.fst) hlist.2
  simp only [List.map_map] at hm
  exact hmaps hm

/-- C2 witness: renaming `/d/x` to `/d/y` without changing its bytes changes
the fingerprint of the invocation `["/d"]`. -/
theorem c2_witness :
    fingerprintKey idHash fsC2r defKw ["/d"] ≠
      fingerprintKey idHash fsC2 defKw ["/d"] :=
  (c2_dir_hash_realpath idHash fsC2 fsC2r defKw "/d"
    rfl (by decide) rfl (by decide)).2 (by decide)

/-- C5: fingerprint determinism and sensitivity.  Determinism: the
fingerprint is a function of the argument vector, the contents and shape of
the file system, the ignore paths and the extra tokens, and it never
consults file modification times — replacing the modification-time map
leaves every fingerprint unchanged.  Sensitivity: for an injective content
hash, changing the bytes of any contributing file — a file argument itself,
or a file inside a walked directory argument — changes the fingerprint. -/
theorem c5_determinism_sensitivity (hash : String → String)
    (hinj : Function.Injective hash) :
    (∀ (fs : FileSystem) (m : String → Nat) (kw : MemoKwargs) (args : List String),
      fingerprintKey hash { fs with mtime := m } kw args =
        fingerprintKey hash fs kw args) ∧
    (∀ (fs1 fs2 : FileSystem) (kw : MemoKwargs) (args : List String)
        (p : String) (i : Nat),
      fs1.kind = fs2.kind → fs1.realpath = fs2.realpath →
      fs1.walkfiles = fs2.walkfiles → fs1.gitInfo = fs2.gitInfo →
      (∀ q, q ≠ p → fs1.content q = fs2.content q) →
      fs1.content p ≠ fs2.content p →
      contributes fs1 (kw.ignorePaths.map (fun q => fs1.realpath q)) args i p →
      fingerprintKey hash fs1 kw args ≠ fingerprintKey hash fs2 kw args) := by
  constructor
  · intro fs m kw args
    rfl
  · intro fs1 fs2 kw args p i hk hr hw hg hc hp hcon hkey
    obtain ⟨hilen, hskip, hig, hcase⟩ := hcon
    have hign : kw.ignorePaths.map (fun q => fs2.realpath q) =
        kw.ignorePaths.map (fun q => fs1.realpath q) := by rw [hr]
    have hfh := congrArg Key.fileHashes hkey
    simp only [fingerprintKey, processArgs] at hfh
    rw [hign] at hfh
    have hflat := List.append_cancel_left hfh
    have hblocks := flatten_map_eq
      (fun j => (stepArg hash fs1 (kw.ignorePaths.map (fun q => fs1.realpath q)) args j).2.1)
      (fun j => (stepArg hash fs2 (kw.ignorePaths.map (fun q => fs1.realpath q)) args j).2.1)
      (List.range args.length)
      (fun j _ => stepArg_length_congr hash fs1 fs2
        (kw.ignorePaths.map (fun q => fs1.realpath q)) args j hk hr hw)
      hflat i (List.mem_range.mpr hilen)
    rcases hcase with ⟨hfile, hap⟩ | ⟨hdir, hmem⟩
    · have h1 := stepArg_file_block hash fs1
        (kw.ignorePaths.map (fun q => fs1.realpath q)) args i hskip hig hfile
      have hfile2 : fs2.kind (args.getD i "") = FileKind.file := by
        rw [← hk]; exact hfile
      have hig2 : fs2.realpath (args.getD i "") ∉
          kw.ignorePaths.map (fun q => fs1.realpath q) := by
        rw [← hr]; exact hig
      have h2 := stepArg_file_block hash fs2
        (kw.ignorePaths.map (fun q => fs1.realpath q)) args i hskip hig2 hfile2
      simp only [h1, h2, List.cons.injEq, HashItem.str.injEq, and_true] at hblocks
      have hcontent := hinj hblocks.2
      rw [hap] at hcontent
      exact hp hcontent
    · have h1 := stepArg_dir_block hash fs1
        (kw.ignorePaths.map (fun q => fs1.realpath q)) args i hskip hig hdir
      have hdir2 : fs2.kind (args.getD i "") = FileKind.dir := by
        rw [← hk]; exact hdir
      have hig2 : fs2.realpath (args.getD i "") ∉
          kw.ignorePaths.map (fun q => fs1.realpath q) := by
        rw [← hr]; exact hig
      have h2 := stepArg_dir_block hash fs2
        (kw.ignorePaths.map (fun q => fs1.realpath q)) args i hskip hig2 hdir2
      rw [← hw] at h2
      simp only [h1, h2, List.cons.injEq, HashItem.str.injEq, HashItem.files.injEq,
        and_true] at hblocks
      have hpair := map_eq_on hblocks.2 p hmem
      have hsnd := congrArg Prod.snd hpair
      exact hp (hinj hsnd)

/-- C5 witness: changing the bytes of the file argument `/p` from `"c1"` to
`"c2"` changes the fingerprint (with the identity as the injective content
hash). -/
theorem c5_witness :
    fingerprintKey idHash fs5a defKw ["/p"] ≠
      fingerprintKey idHash fs5b defKw ["/p"] := by
  refine (c5_determinism_sensitivity idHash Function.injective_id).2
    fs5a fs5b defKw ["/p"] "/p" 0 rfl rfl rfl rfl ?_ (by decide) ?_
  · intro q hq
    simp [fs5a, fs5b, hq]
  · decide

end CondaHelpers
